import Mathlib

/-!
Verification of the gulp EPUB build pipeline (gulpfile.babel.js).

The file embeds the gulpfile's configuration, its mode flag, the content
pipeline stages (match patterns, mode-conditional transform chains,
destination mapping), the packaging and validation tasks, and the task
compositions, as Lean definitions, and proves or refutes the frozen claims
about them.  Paths are modelled as lists of segments relative to the source
content directory (`src/EPUB`).
-/

namespace Gulpfile

/- ### JavaScript value model for line 33

`const devMode = process.env === 'development';` compares `process.env`,
an object, with a string using strict equality.  We model just enough of
JavaScript values and `===` to embed that line faithfully. -/

inductive JSValue where
  | str : String → JSValue
  | obj : List (String × String) → JSValue
  deriving DecidableEq, Repr

/-- JavaScript strict equality (`===`) restricted to the values we model:
two strings are compared by content; an object is `===` only to itself
(reference equality), and an object is never `===` to a string. -/
def jsStrictEq : JSValue → JSValue → Bool
  | JSValue.str a, JSValue.str b => a == b
  | _, _ => false

/-- The `process.env` object for a run whose NODE_ENV variable is
`nodeEnv`: an object holding the environment, never a bare string. -/
def processEnv (nodeEnv : String) : JSValue :=
  JSValue.obj [("NODE_ENV", nodeEnv)]

/-- Line 33: `const devMode = process.env === 'development';`
as a function of the run's NODE_ENV value. -/
def devMode (nodeEnv : String) : Bool :=
  jsStrictEq (processEnv nodeEnv) (JSValue.str "development")

/- ### lodash kebabCase model -/

/-- Word splitting for kebab-casing: a new word starts at a non-alphanumeric
character or at a lower-to-upper camel-case boundary. -/
def splitWordsAux : List Char → List Char → List (List Char)
  | [], acc => if acc.isEmpty then [] else [acc.reverse]
  | c :: cs, acc =>
      if c.isAlphanum then
        if c.isUpper && (match acc with
                         | a :: _ => a.isLower
                         | [] => false) then
          acc.reverse :: splitWordsAux cs [c]
        else
          splitWordsAux cs (c :: acc)
      else
        if acc.isEmpty then splitWordsAux cs []
        else acc.reverse :: splitWordsAux cs []

/-- lodash `kebabCase`: split into words, lowercase them, join with dashes. -/
def kebabCase (s : String) : String :=
  String.intercalate "-"
    ((splitWordsAux s.data []).map (fun w => String.mk (w.map Char.toLower)))

/- ### Configuration (lines 23-29) -/

structure BuildConfig where
  epubName : String
  sourceDirectoryName : String
  buildDirectoryName : String
  contentDirectoryName : String
  devServerPort : Nat
  deriving Repr, DecidableEq

/-- The `config` constant of the gulpfile. -/
def config : BuildConfig :=
  { epubName := "Textbook"
  , sourceDirectoryName := "src"
  , buildDirectoryName := "build"
  , contentDirectoryName := "EPUB"
  , devServerPort := 3000 }

/- ### Content pipeline stage input patterns

A source content file is a path relative to `sourceContentDirectoryPath`
(`src/EPUB`), modelled as a nonempty list of segments.  Each stage's glob
from the gulpfile becomes a decidable match predicate. -/

/-- A path relative to a root directory: the list of its segments. -/
abbrev RelPath := List String

/-- Lines 64-74, `copyFiles`: glob `EPUB/**/*` with the four exclusions
`!EPUB/html/**`, `!EPUB/scss/**`, `!EPUB/images/**`, `!EPUB/js/**`.
A file matches when it lies under the content root but its first segment
is none of the four specially handled directories. -/
def copyFilesMatch (p : RelPath) : Bool :=
  match p with
  | [] => false
  | d :: _ =>
      !(d == "html" || d == "scss" || d == "images" || d == "js")

/-- Lines 78, 80-81 and 90-94: `HTMLSource` is `EPUB/html/**/*.html`; both
the `html` and the `xhtml` stage read it.  A file matches when it is under
`html/` and its file name ends in `.html`. -/
def htmlSourceMatch (p : RelPath) : Bool :=
  match p with
  | "html" :: rest =>
      match rest.getLast? with
      | some name => name.endsWith ".html"
      | none => false
  | _ => false

/-- Lines 115-119, the `css` stage: its src is the single file
`EPUB/scss/styles.scss` (not a glob over all scss files). -/
def cssSourceMatch (p : RelPath) : Bool :=
  p == ["scss", "styles.scss"]

/-- Line 139, `imageSource`: `EPUB/images/*` — only direct children of
`images/`, not nested subdirectories. -/
def imagesSourceMatch (p : RelPath) : Bool :=
  match p with
  | ["images", _] => true
  | _ => false

/-- Line 164, `JSSource`: `EPUB/js/*` — only direct children of `js/`. -/
def jsSourceMatch (p : RelPath) : Bool :=
  match p with
  | ["js", _] => true
  | _ => false

/-- How many of the five content pipeline stages match a given source
content file. -/
def stageMatchCount (p : RelPath) : Nat :=
  (if copyFilesMatch p then 1 else 0) +
  (if htmlSourceMatch p then 1 else 0) +
  (if cssSourceMatch p then 1 else 0) +
  (if imagesSourceMatch p then 1 else 0) +
  (if jsSourceMatch p then 1 else 0)

/- ### Mode-conditional transform chains

`gulpif(cond, t)` applies transform `t` exactly when `cond` holds; the
chains below list, in pipe order, the transforms the `css` and `js` stages
actually apply for a given value of `devMode`. -/

/-- A `gulpif`-guarded pipe step: the transform runs iff the guard is true. -/
def gulpIfStep (cond : Bool) (name : String) : List String :=
  if cond then [name] else []

/-- Lines 115-130: the transforms the `css` stage applies, in pipe order,
for mode flag `dm` (= `devMode`): sourcemaps.init iff dev, sass always,
cleanCSS iff not dev, sourcemaps.write iff dev, postcss and the rename to
`css/` always. -/
def cssAppliedTransforms (dm : Bool) : List String :=
  gulpIfStep dm "sourcemaps.init" ++
  ["sass"] ++
  gulpIfStep (!dm) "cleanCSS" ++
  gulpIfStep dm "sourcemaps.write" ++
  ["postcss", "rename-dirname-css"]

/-- Lines 166-170: the transforms the `js` stage applies for mode flag
`dm`: uglify iff not dev. -/
def jsAppliedTransforms (dm : Bool) : List String :=
  gulpIfStep (!dm) "uglify"

/-- The transforms the spec says the `css` stage applies in a given mode:
development applies the sourcemap transforms and omits minification,
production applies minification and omits the sourcemap transforms.
This definition follows the spec's words, for comparison with
`cssAppliedTransforms` composed with the code's `devMode`. -/
def cssAppliedTransformsSpec (mode : String) : List String :=
  cssAppliedTransforms (mode == "development")

/- ### Markup stage destination mapping

Both markup stages write under `<buildContent>/xhtml/`; the `xhtml` stage
first pipes through `extensionReplace('.xhtml')`. -/

/-- Drop the extension (the part from the last dot) of a file name;
a name without a dot is kept whole. -/
def dropExtension (s : String) : String :=
  let r := s.data.reverse
  if '.' ∈ r then String.mk ((r.dropWhile (fun c => !(c == '.'))).drop 1).reverse
  else s

/-- gulp-ext-replace with argument `newExt`: replace the file name's
extension by `newExt`. -/
def extensionReplace (newExt : String) (s : String) : String :=
  dropExtension s ++ newExt

/-- Apply a function to the last segment of a path. -/
def mapLastSegment (f : String → String) : RelPath → RelPath
  | [] => []
  | [x] => [f x]
  | x :: xs => x :: mapLastSegment f xs

/-- Lines 80-81, the `html` stage: a source file at `rel` under the glob
base `EPUB/html/` is written, name unchanged, under the `xhtml/` build
subdirectory. -/
def htmlStageDest (rel : RelPath) : RelPath :=
  "xhtml" :: rel

/-- Lines 90-94, the `xhtml` stage: same placement under `xhtml/`, with
the file extension rewritten to `.xhtml` by `extensionReplace('.xhtml')`. -/
def xhtmlStageDest (rel : RelPath) : RelPath :=
  "xhtml" :: mapLastSegment (extensionReplace ".xhtml") rel

/- ### Task graph executor -/

/-- A gulp task tree: a named leaf action, or a `series` / `parallel`
composite of subtasks (lines 236-273 build such trees). -/
inductive GTask where
  | leaf : String → GTask
  | taskSeries : List GTask → GTask
  | taskParallel : List GTask → GTask

mutual
/-- The leaf names of a task tree. -/
def GTask.leaves : GTask → List String
  | GTask.leaf n => [n]
  | GTask.taskSeries ts => leavesList ts
  | GTask.taskParallel ts => leavesList ts

/-- The leaf names of a list of task trees, in order. -/
def leavesList : List GTask → List String
  | [] => []
  | t :: ts => GTask.leaves t ++ leavesList ts
end

/-- An environment assigns each leaf action its outcome when run:
`none` is success, `some e` failure with error `e`. -/
abbrev TaskEnv := String → Option String

mutual
/-- Modelled from the spec: the gulp task execution semantics (§4.2),
whose implementation lives in the external gulp library, not in this
repository.  `run env t` returns the list of leaves that were started
(each runs to completion), in completion order, and the composite's
result.  A `series` runs children strictly in order and stops at the
first failure, reporting that child's error; a `parallel` starts all
children, lets every one run to completion, and fails (with the first
failing child's error) only after all have completed. -/
def runTask (env : TaskEnv) : GTask → List String × Option String
  | GTask.leaf n => ([n], env n)
  | GTask.taskSeries ts => runSeriesList env ts
  | GTask.taskParallel ts => runParallelList env ts

/-- Modelled from the spec: fail-fast sequential execution of a child list. -/
def runSeriesList (env : TaskEnv) : List GTask → List String × Option String
  | [] => ([], none)
  | t :: ts =>
      let r := runTask env t
      match r.2 with
      | some e => (r.1, some e)
      | none =>
          let r' := runSeriesList env ts
          (r.1 ++ r'.1, r'.2)

/-- Modelled from the spec: all children of a `parallel` run to
completion; the composite's error is the first failing child's error. -/
def runParallelList (env : TaskEnv) : List GTask → List String × Option String
  | [] => ([], none)
  | t :: ts =>
      let r := runTask env t
      let r' := runParallelList env ts
      (r.1 ++ r'.1, r.2.orElse (fun _ => r'.2))
end

/-- An observable event of a task run: a leaf finishing, or a composite
reporting its completion. -/
inductive GEvent where
  | finished : String → GEvent
  | parallelDone : GEvent
  deriving DecidableEq, Repr

mutual
/-- Modelled from the spec: the chronological event trace of a task run.
A `parallel` composite's own completion event is emitted only after the
events of all its children (§4.2: the composite completes only when all
children complete). -/
def traceTask (env : TaskEnv) : GTask → List GEvent
  | GTask.leaf n => [GEvent.finished n]
  | GTask.taskSeries ts => traceSeriesList env ts
  | GTask.taskParallel ts => traceParallelList env ts ++ [GEvent.parallelDone]

/-- Modelled from the spec: trace of a series' children, stopping after
the first failing child. -/
def traceSeriesList (env : TaskEnv) : List GTask → List GEvent
  | [] => []
  | t :: ts =>
      traceTask env t ++
      (if (runTask env t).2.isSome then [] else traceSeriesList env ts)

/-- Modelled from the spec: concatenated traces of a parallel's children. -/
def traceParallelList (env : TaskEnv) : List GTask → List GEvent
  | [] => []
  | t :: ts => traceTask env t ++ traceParallelList env ts
end

/- ### The task compositions of the gulpfile (lines 236-273) -/

/-- Lines 236-245: `dev = series(cleanFiles, copyFiles, html, images, css,
js, serve, parallel(watchHTML, watchCSS))`. -/
def devTask : GTask :=
  GTask.taskSeries
    [ GTask.leaf "cleanFiles", GTask.leaf "copyFiles", GTask.leaf "html"
    , GTask.leaf "images", GTask.leaf "css", GTask.leaf "js"
    , GTask.leaf "serve"
    , GTask.taskParallel [GTask.leaf "watchHTML", GTask.leaf "watchCSS"] ]

/-- Lines 249-257: `buildProof = series(cleanFiles, copyFiles, xhtml,
images, css, js, parallel(watchXHTML, watchCSS))`. -/
def buildProofTask : GTask :=
  GTask.taskSeries
    [ GTask.leaf "cleanFiles", GTask.leaf "copyFiles", GTask.leaf "xhtml"
    , GTask.leaf "images", GTask.leaf "css", GTask.leaf "js"
    , GTask.taskParallel [GTask.leaf "watchXHTML", GTask.leaf "watchCSS"] ]

/-- Lines 261-269: `buildEpub = series(cleanFiles, copyFiles, xhtml,
images, css, js, series(zipEpub))`. -/
def buildEpubTask : GTask :=
  GTask.taskSeries
    [ GTask.leaf "cleanFiles", GTask.leaf "copyFiles", GTask.leaf "xhtml"
    , GTask.leaf "images", GTask.leaf "css", GTask.leaf "js"
    , GTask.taskSeries [GTask.leaf "zipEpub"] ]

/-- Line 135: `watchCSS` reruns `series('css', 'reload')` on each change
to the scss sources (the rerun chain of buildProof's watch binding). -/
def watchCSSRerunTask : GTask :=
  GTask.taskSeries [GTask.leaf "css", GTask.leaf "reload"]

/- ### Packaging (lines 176-180, zipEpub) -/

/-- Line 179: the archive file name, `kebabCase(config.epubName) + '.epub'`. -/
def zipArchiveName : String :=
  kebabCase config.epubName ++ ".epub"

/-- Line 180: the destination directory of the archive, `gulp.dest('.')` —
the process working directory. -/
def zipDestDirectory : String := "."

/-- Whether an absolute-ish path (segments from the project root) lies
under the build directory and names a file inside it, as the glob
`build/**/*` of line 178 requires. -/
def underBuildRoot (p : RelPath) : Bool :=
  match p with
  | d :: _ :: _ => d == config.buildDirectoryName
  | _ => false

/-- gulp.src's base for `build/**/*` is `build/`; a matched file enters
the stream with its path relative to that base. -/
def relativeToBuildRoot (p : RelPath) : RelPath :=
  p.drop 1

/-- Modelled from the spec: the archive serializer (the external gulp-zip
plugin) stores each streamed file under its stream-relative path, so the
archive's enumerated contents are exactly the relative paths of the files
the glob matched (§4.5: every file with its relative path preserved). -/
def zipContents (projectFiles : List RelPath) : List RelPath :=
  (projectFiles.filter underBuildRoot).map relativeToBuildRoot

/- ### Validation (lines 186-201, validate) -/

/-- Line 190: the file name the checker is invoked on —
`config.epubName + '.epub'`, with no kebab-casing. -/
def validateTargetName : String :=
  config.epubName ++ ".epub"

/-- Lines 190-192: the shell redirection target — the error log is the
checker target's name with `.errors` appended. -/
def validateErrorLogName : String :=
  validateTargetName ++ ".errors"

/-- The outcome of the `exec` call: `err` is non-null when the process
could not be spawned or exited nonzero; `stdout` and `stderr` are the
captured streams handed to the callback. -/
structure ExecResult where
  err : Option String
  stdout : String
  stderr : String

/-- Node's `exec` outcome as a function of whether the spawn succeeded
and of the checker's exit code: the callback's `err` argument is set
exactly when the spawn failed or the exit code was nonzero. -/
def execOutcome (spawnOk : Bool) (exitCode : Nat) (out errText : String) :
    ExecResult :=
  { err := if spawnOk && exitCode == 0 then none
           else some "checker reported errors"
  , stdout := out
  , stderr := errText }

/-- Lines 193-198: the body of the exec callback — it logs `stderr` when
`err` is set, then logs `stdout`; it never touches the task's completion. -/
def validateCallbackLog (r : ExecResult) : List String :=
  (if r.err.isSome then [r.stderr] else []) ++ [r.stdout]

/-- An observable event of the `validate` task, in chronological order. -/
inductive VEvent where
  | execSpawned : VEvent
  | doneCalled : Option String → VEvent
  | callbackRan : VEvent
  deriving DecidableEq, Repr

/-- Modelled from the spec: Node's `exec` is asynchronous (§5 — leaf
operations suspend without blocking); the task body runs to completion
synchronously (spawn the checker at line 189, then `done()` at line 200
with no error argument), and the exec callback runs only afterwards, when
the subprocess has finished.  The trace is therefore the same for every
exec outcome `r`. -/
def validateTrace (_ : ExecResult) : List VEvent :=
  [VEvent.execSpawned, VEvent.doneCalled none, VEvent.callbackRan]

/-- The completion signal `validate` reports to gulp for exec outcome `r`:
the argument of its `doneCalled` event (`none` = success). -/
def validateResult (r : ExecResult) : Option String :=
  match (validateTrace r).filterMap
      (fun e => match e with
                | VEvent.doneCalled x => some x
                | _ => none) with
  | [x] => x
  | _ => some "done not called exactly once"

/- ### Preview server handle and reload (lines 204, 221-226) -/

/-- A browser-sync instance; its contents are irrelevant, only whether
one exists. -/
structure BrowserInstance where
  mk' ::

/-- The gulpfile's module-level state: the `browser` binding of line 204.
`Browser.create()` is called unconditionally at module load, so after
loading the handle is always present. -/
structure ModuleState where
  browser : Option BrowserInstance

/-- Line 204: `const browser = Browser.create();` — evaluated at module
load, before any task can run. -/
def moduleInitState : ModuleState :=
  { browser := some ⟨⟩ }

/-- Lines 221-226, the `reload` task: emit a reload signal iff the guard
`if (browser)` finds the handle, then call `done()`.  Returns whether a
reload signal was emitted and the task's completion signal. -/
def reloadRun (st : ModuleState) : Bool × Option String :=
  (st.browser.isSome, none)

/- ### Helper lemmas -/

/-- Replacing the extension of a name that ends in `.html` keeps the base
name: the reversed scan stops at the extension dot. -/
theorem dropExtension_append_html (base : String) :
    dropExtension (base ++ ".html") = base := by
  have hdata : (base ++ ".html").data
      = base.data ++ ['.', 'h', 't', 'm', 'l'] := by
    simp [String.data_append]
  simp only [dropExtension, hdata, List.reverse_append]
  have hrev : (['.', 'h', 't', 'm', 'l'] : List Char).reverse
      = ['l', 'm', 't', 'h', '.'] := by decide
  rw [hrev]
  rw [if_pos (by simp)]
  simp [List.dropWhile]

/-- `mapLastSegment` only touches the final segment of a path. -/
theorem mapLastSegment_append (f : String → String) (dir : List String)
    (x : String) :
    mapLastSegment f (dir ++ [x]) = dir ++ [f x] := by
  induction dir with
  | nil => rfl
  | cons d ds ih =>
    cases ds with
    | nil => rfl
    | cons e es => simp [mapLastSegment] at ih ⊢; exact ih

/- ### Claim theorems -/

/-- C1: the claim says the mode flag makes development runs apply
sourcemaps and skip minification while production runs minify.  The code
computes `devMode` by strict-equality-comparing the `process.env` object
to the string 'development' (line 33), which is false for every
environment, so a development-mode run (NODE_ENV = development, the
failing input) applies exactly the production transform chain: cleanCSS
and uglify run, the sourcemap transforms never do, and the applied chain
differs from the chain the spec prescribes for development mode. -/
theorem claim_C1_mode_flag_always_false :
    devMode "development" = false ∧
    cssAppliedTransforms (devMode "development")
      = cssAppliedTransforms (devMode "production") ∧
    "cleanCSS" ∈ cssAppliedTransforms (devMode "development") ∧
    "sourcemaps.init" ∉ cssAppliedTransforms (devMode "development") ∧
    "sourcemaps.write" ∉ cssAppliedTransforms (devMode "development") ∧
    "uglify" ∈ jsAppliedTransforms (devMode "development") ∧
    cssAppliedTransforms (devMode "development")
      ≠ cssAppliedTransformsSpec "development" := by
  decide

/-- C2 counterexample: the claim says every file of the source content
tree is matched by exactly one stage, but the file `scss/reset.scss` is
matched by none: `copyFiles` excludes `scss/**` while the css stage reads
only the single file `scss/styles.scss`. -/
theorem claim_C2_counterexample :
    stageMatchCount ["scss", "reset.scss"] = 0 ∧
    ¬ stageMatchCount ["scss", "reset.scss"] = 1 := by
  decide

/-- C2 amended: no source content file is matched by two or more stages
(the four specialized directories are disjoint from each other and are
excluded from `copyFiles`), though some files are matched by none. -/
theorem claim_C2_no_double_match (p : RelPath) : stageMatchCount p ≤ 1 := by
  match p with
  | [] => decide
  | d :: rest =>
    simp only [stageMatchCount, copyFilesMatch, htmlSourceMatch,
      cssSourceMatch, imagesSourceMatch, jsSourceMatch]
    by_cases h1 : d = "html" <;> by_cases h2 : d = "scss" <;>
      by_cases h3 : d = "images" <;> by_cases h4 : d = "js" <;>
      simp_all <;> split <;> simp_all

/-- C3: the claim says the validation task checks the archive the
packaging stage produced (the lower-kebab-cased title) and logs next to
that same name.  With the repository's config (epubName = Textbook, the
failing input) the packaging stage writes `textbook.epub`, but `validate`
invokes the checker on `Textbook.epub` — the raw title without
kebab-casing — and logs to `Textbook.epub.errors`, so it targets a file
the packaging stage never produced. -/
theorem claim_C3_validate_name_mismatch :
    zipArchiveName = "textbook.epub" ∧
    validateTargetName = "Textbook.epub" ∧
    validateErrorLogName = validateTargetName ++ ".errors" ∧
    validateTargetName ≠ zipArchiveName := by
  refine ⟨rfl, rfl, rfl, by decide⟩

/-- C4: in `series(A, B, C)` where A succeeds and B fails, the composite
runs exactly A's and B's leaves — C is never started — and reports B's
error as its own. -/
theorem claim_C4_series_fail_fast (env : TaskEnv) (A B C : GTask)
    (e : String) (hA : (runTask env A).2 = none)
    (hB : (runTask env B).2 = some e) :
    runTask env (GTask.taskSeries [A, B, C])
      = ((runTask env A).1 ++ (runTask env B).1, some e) := by
  simp [runTask, runSeriesList, hA, hB]

/-- C4 witness: a concrete series of three leaves where B fails with
error boom runs only A and B and reports boom. -/
theorem claim_C4_witness :
    runTask (fun n => if n == "B" then some "boom" else none)
        (GTask.taskSeries [GTask.leaf "A", GTask.leaf "B", GTask.leaf "C"])
      = (["A", "B"], some "boom") := by
  have h := claim_C4_series_fail_fast
      (fun n => if n == "B" then some "boom" else none)
      (GTask.leaf "A") (GTask.leaf "B") (GTask.leaf "C") "boom" rfl rfl
  simpa [runTask] using h

/-- C5: in `parallel(A, B)` where A fails and B succeeds, every leaf of B
still runs to completion (the composite's executed list is A's followed
by B's), the composite reports A's error, and in the event trace the
composite's completion event comes only after all of A's and B's events. -/
theorem claim_C5_parallel_waits (env : TaskEnv) (A B : GTask) (e : String)
    (hA : (runTask env A).2 = some e) (hB : (runTask env B).2 = none) :
    runTask env (GTask.taskParallel [A, B])
      = ((runTask env A).1 ++ (runTask env B).1, some e) ∧
    traceTask env (GTask.taskParallel [A, B])
      = traceTask env A ++ traceTask env B ++ [GEvent.parallelDone] := by
  constructor
  · simp [runTask, runParallelList, hA, hB, Option.orElse]
  · simp [traceTask, traceParallelList]

/-- C5 witness: a concrete parallel pair where A fails with boom and B
succeeds still runs B to completion before the composite reports boom. -/
theorem claim_C5_witness :
    runTask (fun n => if n == "A" then some "boom" else none)
        (GTask.taskParallel [GTask.leaf "A", GTask.leaf "B"])
      = (["A", "B"], some "boom") ∧
    traceTask (fun n => if n == "A" then some "boom" else none)
        (GTask.taskParallel [GTask.leaf "A", GTask.leaf "B"])
      = [GEvent.finished "A", GEvent.finished "B", GEvent.parallelDone] := by
  have h := claim_C5_parallel_waits
      (fun n => if n == "A" then some "boom" else none)
      (GTask.leaf "A") (GTask.leaf "B") "boom" rfl rfl
  constructor
  · simpa [runTask] using h.1
  · simpa [traceTask] using h.2

/-- C6: packaging is tree-preserving — for a build tree of files with
nonempty relative paths under the build root, the archive's enumerated
contents are exactly those relative paths, and the single archive is
written to the process working directory under the kebab-cased name. -/
theorem claim_C6_packaging_tree_preserving (tree : List RelPath)
    (h : ∀ p ∈ tree, p ≠ []) :
    zipContents (tree.map (fun p => config.buildDirectoryName :: p)) = tree ∧
    zipArchiveName = kebabCase config.epubName ++ ".epub" ∧
    zipDestDirectory = "." := by
  refine ⟨?_, rfl, rfl⟩
  induction tree with
  | nil => rfl
  | cons p ps ih =>
    have hp : p ≠ [] := h p (List.mem_cons_self p ps)
    have hps : ∀ q ∈ ps, q ≠ [] := fun q hq => h q (List.mem_cons_of_mem p hq)
    match p, hp with
    | q :: qs, _ =>
      simp [zipContents, underBuildRoot, relativeToBuildRoot, config] at ih ⊢
      exact ih hps

/-- C6 witness: a concrete two-file build tree round-trips through the
archive contents unchanged. -/
theorem claim_C6_witness :
    (∀ p ∈ [["EPUB", "package.opf"], ["mimetype"]], p ≠ ([] : RelPath)) ∧
    zipContents ([["EPUB", "package.opf"], ["mimetype"]].map
        (fun p => config.buildDirectoryName :: p))
      = [["EPUB", "package.opf"], ["mimetype"]] :=
  ⟨by decide,
   (claim_C6_packaging_tree_preserving
      [["EPUB", "package.opf"], ["mimetype"]] (by decide)).1⟩

/-- C7: a markup source file `dir/base.html` is written by the `xhtml`
stage (used by buildProof and buildEpub) as `xhtml/dir/base.xhtml` — the
extension rewritten — while the `html` stage (used by dev) writes it as
`xhtml/dir/base.html` unchanged; both land under the xhtml output
subdirectory, and neither packaged-build task uses the `html` stage nor
the dev task the `xhtml` stage. -/
theorem claim_C7_markup_extension (dir : List String) (base : String) :
    xhtmlStageDest (dir ++ [base ++ ".html"])
      = "xhtml" :: (dir ++ [base ++ ".xhtml"]) ∧
    htmlStageDest (dir ++ [base ++ ".html"])
      = "xhtml" :: (dir ++ [base ++ ".html"]) ∧
    "xhtml" ∈ GTask.leaves buildProofTask ∧
    "xhtml" ∈ GTask.leaves buildEpubTask ∧
    "html" ∈ GTask.leaves devTask ∧
    "xhtml" ∉ GTask.leaves devTask ∧
    "html" ∉ GTask.leaves buildProofTask ∧
    "html" ∉ GTask.leaves buildEpubTask := by
  refine ⟨?_, rfl, ?_, ?_, ?_, ?_, ?_, ?_⟩
  · simp only [xhtmlStageDest, mapLastSegment_append, extensionReplace,
      dropExtension_append_html]
  all_goals
    simp [GTask.leaves, leavesList, devTask, buildProofTask, buildEpubTask]

/-- C8: the validate task's completion signal is success for every exit
status of the checker: a nonzero exit only adds the checker's stderr to
the log, while a zero exit logs stdout alone; neither outcome is
propagated as a task failure. -/
theorem claim_C8_checker_verdict_not_propagated (code : Nat)
    (out errText : String) :
    validateResult (execOutcome true code out errText) = none ∧
    validateResult (execOutcome false code out errText) = none ∧
    validateCallbackLog (execOutcome true (code + 1) out errText)
      = [errText, out] ∧
    validateCallbackLog (execOutcome true 0 out errText) = [out] := by
  refine ⟨rfl, rfl, ?_, rfl⟩
  simp [validateCallbackLog, execOutcome]

/-- C9: for every exec outcome the validate task's `done` event precedes
the exec callback in the trace — `done()` runs synchronously right after
the spawn — and even a failed spawn leaves the completion signal a
success, the error appearing only in the callback's log. -/
theorem claim_C9_done_before_callback (r : ExecResult)
    (out errText : String) :
    (validateTrace r).indexOf (VEvent.doneCalled none)
      < (validateTrace r).indexOf VEvent.callbackRan ∧
    validateResult r = none ∧
    validateResult (execOutcome false 0 out errText) = none ∧
    errText ∈ validateCallbackLog (execOutcome false 0 out errText) := by
  refine ⟨by simp only [validateTrace]; decide, rfl, rfl, ?_⟩
  simp [validateCallbackLog, execOutcome]

/-- C10: the browser-sync handle is created unconditionally at module
load, so reload's guard always finds it: reload emits a reload signal
and completes successfully, including in buildProof's watchCSS rerun
chain, a composition whose task tree never contains the serve task. -/
theorem claim_C10_reload_guard_always_taken :
    moduleInitState.browser.isSome = true ∧
    (reloadRun moduleInitState).1 = true ∧
    (reloadRun moduleInitState).2 = none ∧
    "reload" ∈ GTask.leaves watchCSSRerunTask ∧
    "serve" ∉ GTask.leaves buildProofTask := by
  refine ⟨rfl, rfl, rfl, ?_, ?_⟩ <;>
    simp [GTask.leaves, leavesList, watchCSSRerunTask, buildProofTask]

end Gulpfile
